import Mathlib

/-
  Verification development for the Smart-Code-Tutor backend.

  Shallow embedding of:
    - backend/services/code_executor.py   (CodeExecutor)
    - backend/services/rag_service.py     (RAGService)
    - backend/services/websocket_manager.py (WebSocketManager)
    - backend/main.py                     (websocket handlers)

  Effectful backend calls (the E2B sandbox run, the local python exec and
  the node subprocess, the Gemini model call) are modelled as oracle
  functions supplied as parameters; everything the Python code does around
  them (validation, event assembly, line splitting, chunking, error
  catching) is translated literally.
-/

set_option autoImplicit false

namespace SCT

/-- A single quote character, used when reproducing Python string literals. -/
def sq : String := String.mk [Char.ofNat 39]

/-- Python str.strip(): drop leading and trailing whitespace. Implemented
structurally on the character list so that concrete instances evaluate. -/
def pyStrip (s : String) : String :=
  String.mk (((s.data.dropWhile Char.isWhitespace).reverse.dropWhile Char.isWhitespace).reverse)

/-- Python str.split; splitting a character list at every newline.
Splitting the empty list gives one empty field, as in Python. -/
def splitOnNl : List Char → List (List Char)
  | [] => [[]]
  | c :: rest =>
    match splitOnNl rest with
    | [] => [[]]
    | line :: lines =>
      if c = Char.ofNat 10 then [] :: line :: lines else (c :: line) :: lines

/-- Python text.split with newline separator, on strings. -/
def pySplitNl (s : String) : List String :=
  (splitOnNl s.data).map (fun cs => String.mk cs)

/-- Python sep.join(parts), written structurally. -/
def joinSep (sep : String) : List String → String
  | [] => ""
  | [a] => a
  | a :: b :: rest => a ++ sep ++ joinSep sep (b :: rest)

/-- The assembled outcome of one backend execution: success flag, captured
stdout text and captured stderr text (the three keys of the dicts returned
by the private execution helpers in code_executor.py). -/
structure ExecResult where
  success : Bool
  output : String
  error : String
deriving DecidableEq

/-- The dict returned by CodeExecutor.execute (code_executor.py lines 60-77).
Wall-clock elapsed time is abstracted as 0 : Nat. -/
structure ExecutionRecord where
  success : Bool
  output : String
  error : String
  execution_time : Nat
  language : String
deriving DecidableEq

/-- The typed events yielded by the streaming generators of
code_executor.py: start/stdout/stderr/result/complete/error dicts. The
fallback result event carries an exit code, the E2B one does not. -/
inductive Event where
  | start (language : String)
  | stdout (content : String)
  | stderr (content : String)
  | result (success : Bool) (exit_code : Option Nat)
  | complete
  | error (message : String)
deriving DecidableEq

/-- Terminal events in the sense of the spec: complete or error. -/
def Event.isTerminal : Event → Bool
  | Event.complete => true
  | Event.error _ => true
  | _ => false

/-- CodeExecutor (code_executor.py). The effectful backends are oracles:
e2bRun is the assembled outcome of Sandbox.run_code (raising modelled as
Except.error), pythonFallback and jsFallback are the two local fallback
executors, which catch all their own exceptions and hence are total. -/
structure CodeExecutor where
  e2b_enabled : Bool
  e2bRun : String → String → Except String ExecResult
  pythonFallback : String → ExecResult
  jsFallback : String → ExecResult

/-- self.supported_languages (code_executor.py line 31). -/
def supported_languages : List String := ["python", "javascript", "bash", "r", "java"]

/-- The Python repr of a list of strings, as interpolated into the
unsupported-language message. -/
def pyListRepr (l : List String) : String :=
  "[" ++ joinSep ", " (l.map (fun s => sq ++ s ++ sq)) ++ "]"

/-- The ValueError message of code_executor.py line 47. -/
def unsupportedMsg (language : String) : String :=
  "Unsupported language: " ++ language ++ ". Supported: " ++ pyListRepr supported_languages

/-- CodeExecutor._execute_with_e2b (lines 115-208): on a raised exception
the except arm returns a failed result tagged with the message; on success
the assembled output and error are stripped (lines 196-200). -/
def CodeExecutor.execute_with_e2b (ex : CodeExecutor) (code language : String) : ExecResult :=
  match ex.e2bRun code language with
  | Except.ok r => { success := r.success, output := pyStrip r.output, error := pyStrip r.error }
  | Except.error e => { success := false, output := "", error := "E2B execution failed: " ++ e }

/-- The f-string message of code_executor.py line 253. -/
def fallbackUnsupportedMsg (language : String) : String :=
  "Fallback mode doesn" ++ sq ++ "t support " ++ language

/-- CodeExecutor._execute_fallback (lines 241-254). -/
def CodeExecutor.execute_fallback (ex : CodeExecutor) (code language : String) : ExecResult :=
  if language = "python" then ex.pythonFallback code
  else if language = "javascript" then ex.jsFallback code
  else { success := false, output := "", error := fallbackUnsupportedMsg language }

/-- CodeExecutor.execute (lines 40-77): validation raises ValueError which
the outer except converts to a failed record; otherwise the selected
backend result is repackaged with execution_time and language. -/
def CodeExecutor.execute (ex : CodeExecutor) (code language : String) : ExecutionRecord :=
  if language ∉ supported_languages then
    { success := false, output := "", error := unsupportedMsg language,
      execution_time := 0, language := language }
  else if pyStrip code = "" then
    { success := false, output := "", error := "Empty code provided",
      execution_time := 0, language := language }
  else
    let r := if ex.e2b_enabled then ex.execute_with_e2b code language
             else ex.execute_fallback code language
    { success := r.success, output := r.output, error := r.error,
      execution_time := 0, language := language }

/-- The internal failure sites of execute as embedded: a validation
ValueError (caught by the outer except of lines 68-77), or a raised E2B
call (caught inside _execute_with_e2b, lines 202-208); paired with the
message that the corresponding except arm stores. -/
def internalFailureMsg (ex : CodeExecutor) (code language : String) : Option String :=
  if language ∉ supported_languages then some (unsupportedMsg language)
  else if pyStrip code = "" then some "Empty code provided"
  else if ex.e2b_enabled then
    match ex.e2bRun code language with
    | Except.ok _ => none
    | Except.error m => some ("E2B execution failed: " ++ m)
  else none

/-- The per-stream replay of one captured text: split on newline, suppress
lines that are blank after stripping, tag the rest (lines 217-229 and
263-273; the outer `if text:` truthiness check is the `text = ""` guard). -/
def lineEvents (tag : String → Event) (text : String) : List Event :=
  if text = "" then []
  else (pySplitNl text).filterMap
    (fun line => if pyStrip line = "" then none else some (tag line))

/-- CodeExecutor._execute_streaming_e2b (lines 210-239): replay of the
completed _execute_with_e2b result; its except arm is unreachable because
_execute_with_e2b catches its own exceptions. -/
def CodeExecutor.execute_streaming_e2b (ex : CodeExecutor) (code language : String) : List Event :=
  let r := ex.execute_with_e2b code language
  lineEvents Event.stdout r.output ++ lineEvents Event.stderr r.error ++
    [Event.result r.success none]

/-- CodeExecutor._execute_streaming_fallback (lines 256-279). -/
def CodeExecutor.execute_streaming_fallback (ex : CodeExecutor) (code language : String) : List Event :=
  let r := ex.execute_fallback code language
  lineEvents Event.stdout r.output ++ lineEvents Event.stderr r.error ++
    [Event.result r.success (some (if r.success then 0 else 1))]

/-- CodeExecutor.execute_streaming (lines 79-113). -/
def CodeExecutor.execute_streaming (ex : CodeExecutor) (code language : String) : List Event :=
  if language ∉ supported_languages then
    [Event.error ("Unsupported language: " ++ language)]
  else if pyStrip code = "" then
    [Event.error "Empty code provided"]
  else
    Event.start language ::
      ((if ex.e2b_enabled then ex.execute_streaming_e2b code language
        else ex.execute_streaming_fallback code language) ++ [Event.complete])

/-- Python "\n".join(parts). -/
def joinParts (parts : List String) : String := joinSep "\n" parts

/-- RAGService._create_explanation_prompt (rag_service.py lines 84-103). -/
def create_explanation_prompt (code output error : String) : String :=
  joinParts
    (["You are an expert programming tutor. Explain the following code in a clear, educational manner.",
      "\nCode to explain:\n```\n" ++ code ++ "\n```"]
     ++ (if output ≠ "" then ["\nProgram output:\n```\n" ++ output ++ "\n```"] else [])
     ++ (if error ≠ "" then
           ["\nError encountered:\n```\n" ++ error ++ "\n```",
            "\nPlease explain what caused this error and how to fix it."]
         else
           ["\nPlease explain how this code works, what it does, and any important concepts."])
     ++ ["\nProvide a helpful explanation suitable for learning."])

/-- RAGService._fallback_explanation (rag_service.py lines 105-123). -/
def fallback_explanation (code output error : String) : String :=
  joinParts
    (["**Code Analysis** (Fallback mode - AI service unavailable)",
      "\n**Code:**\n```\n" ++ code ++ "\n```"]
     ++ (if output ≠ "" then ["\n**Output:**\n```\n" ++ output ++ "\n```"] else [])
     ++ (if error ≠ "" then
           ["\n**Error:**\n```\n" ++ error ++ "\n```",
            "\n**Note:** This code encountered an error. Please check the syntax and logic."]
         else
           ["\n**Note:** This code executed successfully."])
     ++ ["\n**Tip:** To get detailed AI-powered explanations, please configure your GOOGLE_API_KEY environment variable."])

/-- RAGService (rag_service.py). self.model is None when no GOOGLE_API_KEY
is configured; otherwise the Gemini generate_content call is an oracle from
the prompt to either the response text or a raised exception message. -/
structure RAGService where
  model : Option (String → Except String String)

/-- RAGService.explain_code (rag_service.py lines 42-56): no model means
fallback; a raised model exception is caught and also yields the fallback. -/
def RAGService.explain_code (svc : RAGService) (code output error : String) : String :=
  match svc.model with
  | none => fallback_explanation code output error
  | some m =>
    match m (create_explanation_prompt code output error) with
    | Except.ok t => t
    | Except.error _ => fallback_explanation code output error

/-- The chunking loop of rag_service.py lines 74-77: successive 50-character
slices of the response text, on its character list. -/
def chunkChars (l : List Char) : List (List Char) :=
  if h : l = [] then []
  else l.take 50 :: chunkChars (l.drop 50)
termination_by l.length
decreasing_by
  simp only [List.length_drop]
  have hlen : l.length ≠ 0 := fun hl => h (List.length_eq_zero.mp hl)
  omega

/-- The 50-character chunks of a string, in order. -/
def chunkText (t : String) : List String :=
  (chunkChars t.data).map (fun cs => String.mk cs)

/-- RAGService.explain_code_streaming (rag_service.py lines 58-82). -/
def RAGService.explain_code_streaming (svc : RAGService) (code output error : String) : List String :=
  match svc.model with
  | none => [fallback_explanation code output error]
  | some m =>
    match m (create_explanation_prompt code output error) with
    | Except.ok t => chunkText t
    | Except.error _ => [fallback_explanation code output error]

/-- Observable state of an asyncio.Task: running, finished, or cancelled.
task.done() is true for finished and cancelled tasks. -/
inductive TaskStatus where
  | running
  | finished
  | cancelled
deriving DecidableEq

/-- Python dict lookup on an association list (first matching key). -/
def lookupAssoc {κ α : Type} [DecidableEq κ] : List (κ × α) → κ → Option α
  | [], _ => none
  | (k2, v) :: rest, k => if k2 = k then some v else lookupAssoc rest k

/-- Python dict assignment: overwrite the existing binding or append. -/
def setAssoc {κ α : Type} [DecidableEq κ] : List (κ × α) → κ → α → List (κ × α)
  | [], k, v => [(k, v)]
  | (k2, v2) :: rest, k, v =>
    if k2 = k then (k, v) :: rest else (k2, v2) :: setAssoc rest k v

/-- Python del on a dict key. -/
def removeAssoc {κ α : Type} [DecidableEq κ] : List (κ × α) → κ → List (κ × α)
  | [], _ => []
  | (k2, v2) :: rest, k =>
    if k2 = k then rest else (k2, v2) :: removeAssoc rest k

/-- WebSocketManager (websocket_manager.py lines 9-14) together with the
observable states of the task objects it references; websockets are
abstract handles. -/
structure WebSocketManager where
  active_connections : List (String × Nat)
  client_tasks : List (String × List Nat)
  tasks : List (Nat × TaskStatus)

/-- WebSocketManager.connect (websocket_manager.py lines 16-21): store the
new websocket under client_id and reset its task list to empty. The accept
call is transport-side and not modelled. -/
def WebSocketManager.connect (m : WebSocketManager) (ws : Nat) (client_id : String) :
    WebSocketManager :=
  { m with
    active_connections := setAssoc m.active_connections client_id ws
    client_tasks := setAssoc m.client_tasks client_id [] }

/-- WebSocketManager.disconnect (websocket_manager.py lines 23-34): when the
client is registered, cancel each of its tasks that is not done, then drop
both dict entries. -/
def WebSocketManager.disconnect (m : WebSocketManager) (client_id : String) :
    WebSocketManager :=
  if (lookupAssoc m.active_connections client_id).isSome then
    let tasksAfter :=
      match lookupAssoc m.client_tasks client_id with
      | some ts =>
        m.tasks.map (fun p =>
          if p.1 ∈ ts ∧ p.2 = TaskStatus.running then (p.1, TaskStatus.cancelled) else p)
      | none => m.tasks
    { active_connections := removeAssoc m.active_connections client_id
      client_tasks := removeAssoc m.client_tasks client_id
      tasks := tasksAfter }
  else m

/-- Outbound websocket messages sent by the handlers in main.py. -/
inductive OutMsg where
  | errorMsg (message : String)
  | explanation_start
  | explanation_chunk (data : String)
  | explanation_complete
deriving DecidableEq

/-- handle_code_explanation (main.py lines 143-179): empty code is rejected
before the RAG service is touched; otherwise the streamed chunks are
relayed between start and complete markers. -/
def handle_code_explanation (svc : RAGService) (code output error : String) : List OutMsg :=
  if pyStrip code = "" then [OutMsg.errorMsg "No code provided for explanation"]
  else
    OutMsg.explanation_start ::
      ((svc.explain_code_streaming code output error).map OutMsg.explanation_chunk
        ++ [OutMsg.explanation_complete])

/-- The in-order stdout payloads of an event stream, as folded by the
non-streaming contract. -/
def stdoutPayloads (es : List Event) : List String :=
  es.filterMap (fun e => match e with | Event.stdout s => some s | _ => none)

/-- The in-order stderr payloads of an event stream. -/
def stderrPayloads (es : List Event) : List String :=
  es.filterMap (fun e => match e with | Event.stderr s => some s | _ => none)

/-- The success flags of the result events of an event stream. -/
def resultFlags (es : List Event) : List Bool :=
  es.filterMap (fun e => match e with | Event.result b _ => some b | _ => none)

/-- The lines of a text that are non-blank after stripping; what the
line-replay streaming emits of a captured text. -/
def nonBlankLines (t : String) : List String :=
  (pySplitNl t).filter (fun line => decide (pyStrip line ≠ ""))

/-! Concrete instances used by witnesses and counterexamples. -/

/-- A concrete executor in local-fallback mode whose python oracle behaves
like running print("hello") (captured stdout ends in a newline). -/
def demoFallbackExec : CodeExecutor where
  e2b_enabled := false
  e2bRun := fun _ _ => Except.ok { success := true, output := "", error := "" }
  pythonFallback := fun _ => { success := true, output := "hello\n", error := "" }
  jsFallback := fun _ => { success := false, output := "", error := "node failed" }

/-- A concrete RAG service whose model raises at call time. -/
def demoFailingRAG : RAGService :=
  { model := some (fun _ => Except.error "quota exceeded") }

/-- A concrete executor in E2B mode whose sandbox call raises. -/
def demoE2bFailExec : CodeExecutor where
  e2b_enabled := true
  e2bRun := fun _ _ => Except.error "connection refused"
  pythonFallback := fun _ => { success := true, output := "", error := "" }
  jsFallback := fun _ => { success := true, output := "", error := "" }

/-! ## Helper lemmas about replayed streams -/

/-- Every event produced by lineEvents is the tag applied to a line that is
non-blank after stripping. -/
theorem lineEvents_mem {tag : String → Event} {t : String} {e : Event}
    (h : e ∈ lineEvents tag t) : ∃ s, e = tag s ∧ pyStrip s ≠ "" := by
  unfold lineEvents at h
  by_cases ht : t = ""
  · simp [ht] at h
  · rw [if_neg ht] at h
    rcases List.mem_filterMap.mp h with ⟨line, _, hsome⟩
    by_cases hb : pyStrip line = ""
    · simp [hb] at hsome
    · rw [if_neg hb] at hsome
      exact ⟨line, (Option.some.injEq _ _ ▸ hsome).symm, hb⟩

/-- Membership in the replayed body of a streaming execution. -/
theorem streamBody_mem {X Y : String} {b : Bool} {ec : Option Nat} {e : Event}
    (h : e ∈ lineEvents Event.stdout X ++ lineEvents Event.stderr Y ++ [Event.result b ec]) :
    (∃ s, e = Event.stdout s ∧ pyStrip s ≠ "") ∨
    (∃ s, e = Event.stderr s ∧ pyStrip s ≠ "") ∨ e = Event.result b ec := by
  rcases List.mem_append.mp h with h1 | h2
  · rcases List.mem_append.mp h1 with ha | hb
    · exact Or.inl (lineEvents_mem ha)
    · exact Or.inr (Or.inl (lineEvents_mem hb))
  · exact Or.inr (Or.inr (List.mem_singleton.mp h2))

/-- lineEvents never produces a terminal event. -/
theorem lineEvents_filter_terminal (tag : String → Event)
    (hter : ∀ s, (tag s).isTerminal = false) (t : String) :
    (lineEvents tag t).filter Event.isTerminal = [] := by
  rw [List.filter_eq_nil]
  intro e he
  rcases lineEvents_mem he with ⟨s, rfl, _⟩
  simp [hter s]

/-- Extracting tagged payloads from a guarded tagging of lines recovers the
non-blank lines. -/
theorem filterMap_tagged (extract : Event → Option String) (tag : String → Event)
    (hx : ∀ s, extract (tag s) = some s) (ls : List String) :
    (ls.filterMap (fun line => if pyStrip line = "" then none else some (tag line))).filterMap
        extract
      = ls.filter (fun line => decide (pyStrip line ≠ "")) := by
  induction ls with
  | nil => rfl
  | cons a rest ih =>
    by_cases hb : pyStrip a = ""
    · simp [hb, ih]
    · simp [hb, ih, hx a]

/-- An extractor that ignores the tag extracts nothing from lineEvents. -/
theorem filterMap_lineEvents_none {α : Type} (extract : Event → Option α)
    (tag : String → Event) (hx : ∀ s, extract (tag s) = none) (t : String) :
    (lineEvents tag t).filterMap extract = [] := by
  rw [List.filterMap_eq_nil]
  intro e he
  rcases lineEvents_mem he with ⟨s, rfl, _⟩
  exact hx s

/-- stdout payloads of the stdout line replay are the non-blank lines. -/
theorem stdoutPayloads_lineEvents (t : String) :
    stdoutPayloads (lineEvents Event.stdout t) = nonBlankLines t := by
  unfold stdoutPayloads lineEvents nonBlankLines
  by_cases ht : t = ""
  · subst ht
    decide
  · rw [if_neg ht]
    exact filterMap_tagged _ Event.stdout (fun _ => rfl) (pySplitNl t)

/-- stderr payloads of the stderr line replay are the non-blank lines. -/
theorem stderrPayloads_lineEvents (t : String) :
    stderrPayloads (lineEvents Event.stderr t) = nonBlankLines t := by
  unfold stderrPayloads lineEvents nonBlankLines
  by_cases ht : t = ""
  · subst ht
    decide
  · rw [if_neg ht]
    exact filterMap_tagged _ Event.stderr (fun _ => rfl) (pySplitNl t)

/-- Folding the replayed body and frame of a streaming execution: stdout
payloads are the non-blank stdout lines, stderr payloads the non-blank
stderr lines, and the single result flag is the backend success flag. -/
theorem payload_core (X Y : String) (b : Bool) (ec : Option Nat) (lang : String) :
    stdoutPayloads (Event.start lang ::
        ((lineEvents Event.stdout X ++ lineEvents Event.stderr Y ++ [Event.result b ec])
          ++ [Event.complete])) = nonBlankLines X ∧
    stderrPayloads (Event.start lang ::
        ((lineEvents Event.stdout X ++ lineEvents Event.stderr Y ++ [Event.result b ec])
          ++ [Event.complete])) = nonBlankLines Y ∧
    resultFlags (Event.start lang ::
        ((lineEvents Event.stdout X ++ lineEvents Event.stderr Y ++ [Event.result b ec])
          ++ [Event.complete])) = [b] := by
  refine ⟨?_, ?_, ?_⟩
  · simp only [stdoutPayloads, List.filterMap_cons, List.filterMap_append]
    rw [show (List.filterMap _ (lineEvents Event.stdout X)) = nonBlankLines X from
      stdoutPayloads_lineEvents X]
    rw [filterMap_lineEvents_none _ Event.stderr (fun _ => rfl) Y]
    simp
  · simp only [stderrPayloads, List.filterMap_cons, List.filterMap_append]
    rw [show (List.filterMap _ (lineEvents Event.stderr Y)) = nonBlankLines Y from
      stderrPayloads_lineEvents Y]
    rw [filterMap_lineEvents_none _ Event.stdout (fun _ => rfl) X]
    simp
  · simp only [resultFlags, List.filterMap_cons, List.filterMap_append]
    rw [filterMap_lineEvents_none _ Event.stdout (fun _ => rfl) X]
    rw [filterMap_lineEvents_none _ Event.stderr (fun _ => rfl) Y]
    simp

/-- Joining a non-empty list of parts yields a string that extends its
first part. -/
theorem joinSep_cons_prefix (sep a : String) (l : List String) :
    ∃ t, joinSep sep (a :: l) = a ++ t := by
  cases l with
  | nil => exact ⟨"", (String.append_empty a).symm⟩
  | cons b rest =>
    exact ⟨sep ++ joinSep sep (b :: rest), by rw [joinSep, String.append_assoc]⟩

/-- The static fallback explanation is never the empty string. -/
theorem fallback_explanation_ne_empty (code output error : String) :
    fallback_explanation code output error ≠ "" := by
  unfold fallback_explanation joinParts
  simp only [List.append_assoc, List.cons_append, List.nil_append]
  rcases joinSep_cons_prefix "\n"
    "**Code Analysis** (Fallback mode - AI service unavailable)" _ with ⟨t, ht⟩
  rw [ht]
  intro hcontra
  have hlen := congrArg String.length hcontra
  rw [String.length_append] at hlen
  have hpos :
      0 < ("**Code Analysis** (Fallback mode - AI service unavailable)" : String).length := by
    decide
  have hz : ("" : String).length = 0 := rfl
  rw [hz] at hlen
  omega

/-- Concatenating the 50-character chunks gives back the character list. -/
theorem chunkChars_flatten (l : List Char) : (chunkChars l).flatten = l := by
  induction l using chunkChars.induct with
  | case1 => simp [chunkChars]
  | case2 l h ih =>
    rw [chunkChars]
    rw [dif_neg h]
    simp only [List.flatten_cons, ih, List.take_append_drop]

/-- A non-empty character list yields a non-empty chunk list. -/
theorem chunkChars_ne_nil {l : List Char} (h : l ≠ []) : chunkChars l ≠ [] := by
  rw [chunkChars, dif_neg h]
  exact List.cons_ne_nil _ _

/-- Every chunk has between 1 and 50 characters. -/
theorem chunkChars_mem_length {l c : List Char} (h : c ∈ chunkChars l) :
    0 < c.length ∧ c.length ≤ 50 := by
  induction l using chunkChars.induct with
  | case1 => rw [chunkChars] at h; simp at h
  | case2 l hne ih =>
    rw [chunkChars, dif_neg hne] at h
    rcases List.mem_cons.mp h with rfl | hrest
    · rw [List.length_take]
      have hlen : l.length ≠ 0 := fun hl => hne (List.length_eq_zero.mp hl)
      omega
    · exact ih hrest

/-- Every chunk except the last has exactly 50 characters. -/
theorem chunkChars_dropLast_length {l c : List Char}
    (h : c ∈ (chunkChars l).dropLast) : c.length = 50 := by
  induction l using chunkChars.induct with
  | case1 => rw [chunkChars] at h; simp at h
  | case2 l hne ih =>
    rw [chunkChars, dif_neg hne] at h
    by_cases hrest : l.drop 50 = []
    · rw [chunkChars, dif_pos hrest] at h
      simp at h
    · have hcne : chunkChars (l.drop 50) ≠ [] := chunkChars_ne_nil hrest
      rw [List.dropLast_cons_of_ne_nil hcne] at h
      rcases List.mem_cons.mp h with rfl | hrest2
      · rw [List.length_take]
        have hgt : 50 < l.length := by
          rcases Nat.lt_or_ge 50 l.length with hx | hx
          · exact hx
          · exact absurd (List.drop_eq_nil_iff.mpr hx) hrest
        omega
      · exact ih hrest2

/-- Mapping String.mk over chunk lists and joining agrees with flattening. -/
theorem string_foldl_append (ls : List (List Char)) (acc : List Char) :
    (ls.map (fun cs => String.mk cs)).foldl (fun r s => r ++ s) (String.mk acc)
      = String.mk (acc ++ ls.flatten) := by
  induction ls generalizing acc with
  | nil => simp
  | cons a rest ih =>
    simp only [List.map_cons, List.foldl_cons]
    rw [show (String.mk acc ++ String.mk a) = String.mk (acc ++ a) from rfl, ih]
    simp

/-- Every string chunk has between 1 and 50 characters. -/
theorem chunkText_mem_length {t c : String} (h : c ∈ chunkText t) :
    1 ≤ c.length ∧ c.length ≤ 50 := by
  unfold chunkText at h
  rcases List.mem_map.mp h with ⟨cs, hcs, rfl⟩
  have hb := chunkChars_mem_length hcs
  exact ⟨hb.1, hb.2⟩

/-- Every string chunk except the last has exactly 50 characters. -/
theorem chunkText_dropLast_length {t c : String} (h : c ∈ (chunkText t).dropLast) :
    c.length = 50 := by
  unfold chunkText at h
  rw [← List.map_dropLast] at h
  rcases List.mem_map.mp h with ⟨cs, hcs, rfl⟩
  exact chunkChars_dropLast_length hcs

/-- String.join of the chunks of a text gives back the text. -/
theorem chunkText_join (t : String) : String.join (chunkText t) = t := by
  show (List.foldl (fun r s => r ++ s) "" (chunkText t)) = t
  rw [show ("" : String) = String.mk [] from rfl]
  unfold chunkText
  rw [string_foldl_append]
  rw [List.nil_append, chunkChars_flatten]

/-- Looking up a key just assigned in an association list finds the new
value. -/
theorem lookupAssoc_setAssoc {κ α : Type} [DecidableEq κ] (l : List (κ × α)) (k : κ) (v : α) :
    lookupAssoc (setAssoc l k v) k = some v := by
  induction l with
  | nil => simp [setAssoc, lookupAssoc]
  | cons p rest ih =>
    cases p with
    | mk k2 v2 =>
      by_cases hk : k2 = k
      · simp [setAssoc, lookupAssoc, hk]
      · simp [setAssoc, lookupAssoc, hk, ih]

/-! ## Claim theorems -/

/-- Claim C1: for a supported language and non-blank code, the stream of
execute_streaming begins with the start event, every stdout/stderr event in
it carries a payload that is non-blank after stripping, and it ends with
exactly one terminal event (here complete) followed by nothing. -/
theorem C1_stream_shape (ex : CodeExecutor) (code language : String)
    (hl : language ∈ supported_languages) (hc : pyStrip code ≠ "") :
    (ex.execute_streaming code language).head? = some (Event.start language) ∧
    (∀ e ∈ ex.execute_streaming code language, ∀ s,
       (e = Event.stdout s ∨ e = Event.stderr s) → pyStrip s ≠ "") ∧
    ((ex.execute_streaming code language).filter Event.isTerminal).length = 1 ∧
    (ex.execute_streaming code language).getLast? = some Event.complete := by
  have hshape : ∃ X Y b ec,
      ex.execute_streaming code language =
        Event.start language ::
          ((lineEvents Event.stdout X ++ lineEvents Event.stderr Y ++ [Event.result b ec])
            ++ [Event.complete]) := by
    have h1 : ex.execute_streaming code language =
        Event.start language ::
          ((if ex.e2b_enabled then ex.execute_streaming_e2b code language
            else ex.execute_streaming_fallback code language) ++ [Event.complete]) := by
      unfold CodeExecutor.execute_streaming
      rw [if_neg (not_not_intro hl), if_neg hc]
    cases hE : ex.e2b_enabled
    · rw [h1, hE]
      exact ⟨(ex.execute_fallback code language).output, (ex.execute_fallback code language).error,
        _, _, rfl⟩
    · rw [h1, hE]
      exact ⟨(ex.execute_with_e2b code language).output, (ex.execute_with_e2b code language).error,
        _, _, rfl⟩
  rcases hshape with ⟨X, Y, b, ec, hs⟩
  rw [hs]
  refine ⟨rfl, ?_, ?_, ?_⟩
  · intro e he s h2
    rcases List.mem_cons.mp he with rfl | he2
    · rcases h2 with h2 | h2 <;> exact absurd h2 (by simp)
    · rcases List.mem_append.mp he2 with hbody | hcomp
      · rcases streamBody_mem hbody with ⟨s2, rfl, hs2⟩ | ⟨s2, rfl, hs2⟩ | rfl
        · rcases h2 with h2 | h2
          · injection h2 with h3; exact h3 ▸ hs2
          · injection h2
        · rcases h2 with h2 | h2
          · injection h2
          · injection h2 with h3; exact h3 ▸ hs2
        · rcases h2 with h2 | h2 <;> injection h2
      · rcases List.mem_singleton.mp hcomp with rfl
        rcases h2 with h2 | h2 <;> injection h2
  · rw [List.filter_cons_of_neg, List.filter_append, List.filter_append, List.filter_append,
      lineEvents_filter_terminal Event.stdout (fun _ => rfl),
      lineEvents_filter_terminal Event.stderr (fun _ => rfl)]
    · rfl
    · simp [Event.isTerminal]
  · rw [← List.cons_append, List.getLast?_concat]

/-- Witness for C1 on the concrete fallback executor and python code. -/
theorem C1_witness :
    ("python" ∈ supported_languages ∧ pyStrip "print(1)" ≠ "") ∧
    ((demoFallbackExec.execute_streaming "print(1)" "python").head?
        = some (Event.start "python") ∧
     (∀ e ∈ demoFallbackExec.execute_streaming "print(1)" "python", ∀ s,
        (e = Event.stdout s ∨ e = Event.stderr s) → pyStrip s ≠ "") ∧
     ((demoFallbackExec.execute_streaming "print(1)" "python").filter Event.isTerminal).length
        = 1 ∧
     (demoFallbackExec.execute_streaming "print(1)" "python").getLast? = some Event.complete) :=
  ⟨⟨by decide, by decide⟩,
   C1_stream_shape demoFallbackExec "print(1)" "python" (by decide) (by decide)⟩

/-- Claim C2: with an unsupported language or blank code, execute returns a
failed record and execute_streaming yields a single error event, and neither
result depends on the executor's backend oracles or E2B configuration — no
sandbox, subprocess or local evaluation can be involved. -/
theorem C2_invalid_input_short_circuits (ex ex2 : CodeExecutor) (code language : String)
    (h : language ∉ supported_languages ∨ pyStrip code = "") :
    (ex.execute code language).success = false ∧
    (∃ msg, ex.execute_streaming code language = [Event.error msg]) ∧
    ex.execute code language = ex2.execute code language ∧
    ex.execute_streaming code language = ex2.execute_streaming code language := by
  by_cases hl : language ∈ supported_languages
  · rcases h with h | h
    · exact absurd hl h
    · unfold CodeExecutor.execute CodeExecutor.execute_streaming
      simp [hl, h]
  · unfold CodeExecutor.execute CodeExecutor.execute_streaming
    simp [hl]

/-- Witness for C2 at the unsupported language "ruby". -/
theorem C2_witness :
    ("ruby" ∉ supported_languages ∨ pyStrip "print(1)" = "") ∧
    ((demoFallbackExec.execute "print(1)" "ruby").success = false ∧
     (∃ msg, demoFallbackExec.execute_streaming "print(1)" "ruby" = [Event.error msg]) ∧
     demoFallbackExec.execute "print(1)" "ruby" = demoE2bFailExec.execute "print(1)" "ruby" ∧
     demoFallbackExec.execute_streaming "print(1)" "ruby"
       = demoE2bFailExec.execute_streaming "print(1)" "ruby") :=
  ⟨by decide,
   C2_invalid_input_short_circuits demoFallbackExec demoE2bFailExec "print(1)" "ruby" (by decide)⟩

/-- Claim C3 as stated is false: with the local python behavior of printing
hello (captured stdout "hello\n"), concatenating the stdout payloads of the
stream of execute_streaming gives "hello" while execute on the same input
returns output "hello\n" — line replay drops newline structure, so the
plain concatenation fold does not reproduce the non-streaming output. -/
theorem C3_counterexample :
    ¬ (String.join (stdoutPayloads (demoFallbackExec.execute_streaming "print(1)" "python"))
        = (demoFallbackExec.execute "print(1)" "python").output) := by
  decide

/-- Claim C3 amended: for valid inputs the two paths agree up to the
line-replay normalization: the stdout payload sequence of the stream equals
the non-blank lines of execute's output, the stderr payload sequence equals
the non-blank lines of execute's error, and the stream carries exactly one
result event, whose flag is execute's success. -/
theorem C3_amended_fold_agreement (ex : CodeExecutor) (code language : String)
    (hl : language ∈ supported_languages) (hc : pyStrip code ≠ "") :
    stdoutPayloads (ex.execute_streaming code language)
      = nonBlankLines (ex.execute code language).output ∧
    stderrPayloads (ex.execute_streaming code language)
      = nonBlankLines (ex.execute code language).error ∧
    resultFlags (ex.execute_streaming code language)
      = [(ex.execute code language).success] := by
  cases hE : ex.e2b_enabled
  · have hs : ex.execute_streaming code language =
        Event.start language ::
          ((lineEvents Event.stdout (ex.execute_fallback code language).output ++
            lineEvents Event.stderr (ex.execute_fallback code language).error ++
            [Event.result (ex.execute_fallback code language).success
              (some (if (ex.execute_fallback code language).success then 0 else 1))])
            ++ [Event.complete]) := by
      unfold CodeExecutor.execute_streaming CodeExecutor.execute_streaming_fallback
      rw [if_neg (not_not_intro hl), if_neg hc, hE]
      simp
    have hx : ex.execute code language =
        { success := (ex.execute_fallback code language).success,
          output := (ex.execute_fallback code language).output,
          error := (ex.execute_fallback code language).error,
          execution_time := 0, language := language } := by
      unfold CodeExecutor.execute
      rw [if_neg (not_not_intro hl), if_neg hc, hE]
      simp
    rw [hs, hx]
    exact payload_core _ _ _ _ _
  · have hs : ex.execute_streaming code language =
        Event.start language ::
          ((lineEvents Event.stdout (ex.execute_with_e2b code language).output ++
            lineEvents Event.stderr (ex.execute_with_e2b code language).error ++
            [Event.result (ex.execute_with_e2b code language).success none])
            ++ [Event.complete]) := by
      unfold CodeExecutor.execute_streaming CodeExecutor.execute_streaming_e2b
      rw [if_neg (not_not_intro hl), if_neg hc, hE]
      simp
    have hx : ex.execute code language =
        { success := (ex.execute_with_e2b code language).success,
          output := (ex.execute_with_e2b code language).output,
          error := (ex.execute_with_e2b code language).error,
          execution_time := 0, language := language } := by
      unfold CodeExecutor.execute
      rw [if_neg (not_not_intro hl), if_neg hc, hE]
      simp
    rw [hs, hx]
    exact payload_core _ _ _ _ _

/-- Witness for the amended C3 on the concrete fallback executor. -/
theorem C3_amended_witness :
    ("python" ∈ supported_languages ∧ pyStrip "print(1)" ≠ "") ∧
    (stdoutPayloads (demoFallbackExec.execute_streaming "print(1)" "python")
       = nonBlankLines (demoFallbackExec.execute "print(1)" "python").output ∧
     stderrPayloads (demoFallbackExec.execute_streaming "print(1)" "python")
       = nonBlankLines (demoFallbackExec.execute "print(1)" "python").error ∧
     resultFlags (demoFallbackExec.execute_streaming "print(1)" "python")
       = [(demoFallbackExec.execute "print(1)" "python").success]) :=
  ⟨⟨by decide, by decide⟩,
   C3_amended_fold_agreement demoFallbackExec "print(1)" "python" (by decide) (by decide)⟩

/-- Claim C7: a request whose code is blank after stripping is answered by
the single validation error message, and the handler output does not depend
on the RAG service at all — no explanation backend is invoked. -/
theorem C7_empty_code_explanation_rejected (svc svc2 : RAGService) (code output error : String)
    (h : pyStrip code = "") :
    handle_code_explanation svc code output error
      = [OutMsg.errorMsg "No code provided for explanation"] ∧
    handle_code_explanation svc code output error
      = handle_code_explanation svc2 code output error := by
  unfold handle_code_explanation
  simp [h]

/-- Witness for C7 at whitespace-only code. -/
theorem C7_witness :
    pyStrip "  " = "" ∧
    (handle_code_explanation { model := none } "  " "out" "err"
       = [OutMsg.errorMsg "No code provided for explanation"] ∧
     handle_code_explanation { model := none } "  " "out" "err"
       = handle_code_explanation { model := some (fun _ => Except.ok "text") } "  " "out" "err") :=
  ⟨by decide,
   C7_empty_code_explanation_rejected { model := none }
     { model := some (fun _ => Except.ok "text") } "  " "out" "err" (by decide)⟩

/-- Claim C9: for bash, r and java the local fallback path fails immediately
with empty output and an error message that names the language, and the
result does not depend on the python or javascript oracles — no code runs. -/
theorem C9_fallback_rejects_other_languages (ex ex2 : CodeExecutor) (code language : String)
    (h : language = "bash" ∨ language = "r" ∨ language = "java") :
    ex.execute_fallback code language =
      { success := false, output := "", error := fallbackUnsupportedMsg language } ∧
    (∃ p, (ex.execute_fallback code language).error = p ++ language) ∧
    ex.execute_fallback code language = ex2.execute_fallback code language := by
  rcases h with h | h | h <;> subst h <;>
    exact ⟨rfl, ⟨"Fallback mode doesn" ++ sq ++ "t support ", rfl⟩, rfl⟩

/-- Witness for C9 at language java. -/
theorem C9_witness :
    ("java" = "bash" ∨ "java" = "r" ∨ "java" = "java") ∧
    (demoFallbackExec.execute_fallback "class A {}" "java" =
       { success := false, output := "", error := fallbackUnsupportedMsg "java" } ∧
     (∃ p, (demoFallbackExec.execute_fallback "class A {}" "java").error = p ++ "java") ∧
     demoFallbackExec.execute_fallback "class A {}" "java"
       = demoE2bFailExec.execute_fallback "class A {}" "java") :=
  ⟨by decide,
   C9_fallback_rejects_other_languages demoFallbackExec demoE2bFailExec "class A {}" "java"
     (by decide)⟩

/-- Claim C4: when the configured model raises at call time, both
explain_code and explain_code_streaming deliver the static fallback
explanation for that call, and that explanation is non-empty — the failure
never escapes. -/
theorem C4_model_failure_falls_back (svc : RAGService) (code output error msg : String)
    (m : String → Except String String)
    (hm : svc.model = some m)
    (hfail : m (create_explanation_prompt code output error) = Except.error msg) :
    svc.explain_code code output error = fallback_explanation code output error ∧
    svc.explain_code_streaming code output error = [fallback_explanation code output error] ∧
    fallback_explanation code output error ≠ "" := by
  unfold RAGService.explain_code RAGService.explain_code_streaming
  rw [hm]
  simp only [hfail]
  exact ⟨trivial, trivial, fallback_explanation_ne_empty code output error⟩

/-- Witness for C4 on a service whose model always raises. -/
theorem C4_witness :
    (demoFailingRAG.model = some (fun _ => Except.error "quota exceeded") ∧
     (fun _ : String => (Except.error "quota exceeded" : Except String String))
        (create_explanation_prompt "print(1)" "" "") = Except.error "quota exceeded") ∧
    (demoFailingRAG.explain_code "print(1)" "" "" = fallback_explanation "print(1)" "" "" ∧
     demoFailingRAG.explain_code_streaming "print(1)" "" ""
       = [fallback_explanation "print(1)" "" ""] ∧
     fallback_explanation "print(1)" "" "" ≠ "") :=
  ⟨⟨rfl, rfl⟩,
   C4_model_failure_falls_back demoFailingRAG "print(1)" "" "" "quota exceeded"
     (fun _ => Except.error "quota exceeded") rfl rfl⟩

/-- Claim C8: when the model returns a text, explain_code_streaming yields
exactly its successive 50-character chunks: all but the last have length
50, the last (for non-empty text) has between 1 and 50 characters, and the
concatenation of all chunks is the original text. -/
theorem C8_chunking (svc : RAGService) (code output error t : String)
    (m : String → Except String String)
    (hm : svc.model = some m)
    (hok : m (create_explanation_prompt code output error) = Except.ok t) :
    svc.explain_code_streaming code output error = chunkText t ∧
    String.join (chunkText t) = t ∧
    (∀ c ∈ (chunkText t).dropLast, c.length = 50) ∧
    (t ≠ "" → ∃ c, (chunkText t).getLast? = some c ∧ 1 ≤ c.length ∧ c.length ≤ 50) := by
  refine ⟨?_, chunkText_join t, ?_, ?_⟩
  · unfold RAGService.explain_code_streaming
    rw [hm]
    simp only [hok]
  · intro c hc
    exact chunkText_dropLast_length hc
  · intro ht
    have hd : t.data ≠ [] := by
      intro hdata
      apply ht
      cases t with
      | mk d =>
        subst hdata
        rfl
    have hne : chunkText t ≠ [] := by
      unfold chunkText
      intro hmap
      exact chunkChars_ne_nil hd (List.map_eq_nil.mp hmap)
    exact ⟨(chunkText t).getLast hne, List.getLast?_eq_getLast_of_ne_nil hne,
      chunkText_mem_length (List.getLast_mem hne)⟩

/-- Witness for C8 at a 70-character model response. -/
theorem C8_witness :
    (({ model := some (fun _ => Except.ok
          "0123456789012345678901234567890123456789012345678901234567890123456789") } :
        RAGService).model
       = some (fun _ => Except.ok
          "0123456789012345678901234567890123456789012345678901234567890123456789") ∧
     (fun _ : String => (Except.ok
          "0123456789012345678901234567890123456789012345678901234567890123456789" :
        Except String String)) (create_explanation_prompt "x" "" "")
       = Except.ok
          "0123456789012345678901234567890123456789012345678901234567890123456789") ∧
    (RAGService.explain_code_streaming
        { model := some (fun _ => Except.ok
          "0123456789012345678901234567890123456789012345678901234567890123456789") }
        "x" "" ""
       = chunkText
          "0123456789012345678901234567890123456789012345678901234567890123456789" ∧
     String.join (chunkText
          "0123456789012345678901234567890123456789012345678901234567890123456789")
       = "0123456789012345678901234567890123456789012345678901234567890123456789" ∧
     (∀ c ∈ (chunkText
          "0123456789012345678901234567890123456789012345678901234567890123456789").dropLast,
        c.length = 50) ∧
     ("0123456789012345678901234567890123456789012345678901234567890123456789" ≠ "" →
       ∃ c, (chunkText
          "0123456789012345678901234567890123456789012345678901234567890123456789").getLast?
           = some c ∧ 1 ≤ c.length ∧ c.length ≤ 50)) :=
  ⟨⟨rfl, rfl⟩,
   C8_chunking
     { model := some (fun _ => Except.ok
        "0123456789012345678901234567890123456789012345678901234567890123456789") }
     "x" "" ""
     "0123456789012345678901234567890123456789012345678901234567890123456789"
     (fun _ => Except.ok
        "0123456789012345678901234567890123456789012345678901234567890123456789")
     rfl rfl⟩

/-- Claim C5: execute is a total function into the five-field record (so no
exception reaches the caller), it always reports the requested language,
and on any internal failure — validation error or raised E2B call — the
record has success false and carries the failure message in error. -/
theorem C5_internal_failure (ex : CodeExecutor) (code language msg : String)
    (h : internalFailureMsg ex code language = some msg) :
    (ex.execute code language).success = false ∧
    (ex.execute code language).error = msg ∧
    (ex.execute code language).language = language := by
  unfold internalFailureMsg at h
  by_cases hl : language ∈ supported_languages
  · rw [if_neg (not_not_intro hl)] at h
    by_cases hcode : pyStrip code = ""
    · rw [if_pos hcode] at h
      injection h with h2
      have hx : ex.execute code language =
          { success := false, output := "", error := "Empty code provided",
            execution_time := 0, language := language } := by
        unfold CodeExecutor.execute
        rw [if_neg (not_not_intro hl), if_pos hcode]
      rw [hx, ← h2]
      exact ⟨rfl, rfl, rfl⟩
    · rw [if_neg hcode] at h
      cases hE : ex.e2b_enabled
      · rw [hE] at h
        simp at h
      · rw [hE] at h
        simp only [if_true] at h
        cases hrun : ex.e2bRun code language with
        | ok r =>
          rw [hrun] at h
          simp at h
        | error m =>
          rw [hrun] at h
          simp only [Option.some.injEq] at h
          have hx : ex.execute code language =
              { success := false, output := "",
                error := "E2B execution failed: " ++ m,
                execution_time := 0, language := language } := by
            unfold CodeExecutor.execute CodeExecutor.execute_with_e2b
            rw [if_neg (not_not_intro hl), if_neg hcode, hE, hrun]
            simp
          rw [hx, ← h]
          exact ⟨rfl, rfl, rfl⟩
  · rw [if_pos hl] at h
    injection h with h2
    have hx : ex.execute code language =
        { success := false, output := "", error := unsupportedMsg language,
          execution_time := 0, language := language } := by
      unfold CodeExecutor.execute
      rw [if_pos hl]
    rw [hx, ← h2]
    exact ⟨rfl, rfl, rfl⟩

/-- Witness for C5 on the executor whose E2B call raises. -/
theorem C5_witness :
    internalFailureMsg demoE2bFailExec "print(1)" "python"
        = some "E2B execution failed: connection refused" ∧
    ((demoE2bFailExec.execute "print(1)" "python").success = false ∧
     (demoE2bFailExec.execute "print(1)" "python").error
        = "E2B execution failed: connection refused" ∧
     (demoE2bFailExec.execute "print(1)" "python").language = "python") :=
  ⟨by decide,
   C5_internal_failure demoE2bFailExec "print(1)" "python"
     "E2B execution failed: connection refused" (by decide)⟩

/-- Claim C6 as stated is false: connect on an already-registered client id
does not cancel the prior connection's pending tasks — with client c
holding a still-running task 7, connecting a new websocket for c leaves
task 7 uncancelled (connect only overwrites the dict entries). -/
theorem C6_counterexample :
    ¬ (lookupAssoc (WebSocketManager.connect
          { active_connections := [("c", 1)], client_tasks := [("c", [7])],
            tasks := [(7, TaskStatus.running)] } 2 "c").tasks 7
        = some TaskStatus.cancelled) := by
  decide

/-- Claim C6 amended: connect on an existing client id stores the new
websocket and resets the task list to empty, but performs no teardown: the
states of all task objects are left untouched (cancellation of pending
tasks happens only in disconnect). -/
theorem C6_amended_connect_overwrites (m : WebSocketManager) (ws : Nat) (client_id : String) :
    lookupAssoc (m.connect ws client_id).active_connections client_id = some ws ∧
    lookupAssoc (m.connect ws client_id).client_tasks client_id = some [] ∧
    (m.connect ws client_id).tasks = m.tasks := by
  refine ⟨?_, ?_, rfl⟩ <;> apply lookupAssoc_setAssoc

/-- Claim C10: with no model configured, explain_code_streaming yields the
whole fallback explanation as one single chunk. -/
theorem C10_no_model_single_chunk (svc : RAGService) (code output error : String)
    (h : svc.model = none) :
    svc.explain_code_streaming code output error
      = [fallback_explanation code output error] := by
  unfold RAGService.explain_code_streaming
  rw [h]

/-- Witness for C10 on a model-less service. -/
theorem C10_witness :
    ({ model := none } : RAGService).model = none ∧
    RAGService.explain_code_streaming { model := none } "print(1)" "1" ""
      = [fallback_explanation "print(1)" "1" ""] :=
  ⟨rfl, C10_no_model_single_chunk { model := none } "print(1)" "1" "" rfl⟩

end SCT
